import Mathlib

/-
Shallow embedding of ernesto27/stui (src/main.go).

Modelling conventions:
- Go strings are Lean `String` (lists of characters); the program only
  manipulates them with concatenation, ReplaceAll, ToLower and a regexp
  substitution, all reproduced below character-by-character.
- The Go `float64` field `model.percent` is modelled as an exact rational
  (`ℚ`): the literals 0.01, 0.33 and 1.0 become 1/100, 33/100 and 1.  Every
  (in)equality proved or refuted below is robust to this choice: each side
  is compared against 0, 1 or another sum of the same literals, and the
  float computations in the source agree with the exact rationals on the
  direction of every such comparison.
- Concurrency is modelled by traces: each shared-state mutation performed by
  a worker goroutine (`DoOpenAIRequest`) or by the UI tick (`Update`,
  `tickMsg` case) is an `AggEvent`, and a run of one aggregation cycle is a
  fold of an arbitrary interleaving of those events over the model state.
- External library calls (lipgloss styling, the bubbles progress bar) are
  display-only wrappers around the text they receive; they are modelled as
  identity / placeholder renderers, which does not affect any claim below
  (the claims only concern which text is produced and in which order).
-/

/-! ## Go string primitives used by the source -/

/-- ASCII model of Go `strings.ToLower` (the inputs in play are ASCII):
lowercase every character, using Lean's ASCII `Char.toLower`. -/
def toLowerS (s : String) : String :=
  ⟨s.data.map Char.toLower⟩

/-- Fuel-indexed core of Go `strings.ReplaceAll` for a nonempty pattern:
scan left to right, replacing each non-overlapping occurrence of `pat` by
`rep` and continuing after the replaced segment.  Fuel equal to the length
of the scanned list suffices, since every step consumes at least one
character. -/
def replaceAllGo (pat rep : List Char) : Nat → List Char → List Char
  | 0, l => l
  | _ + 1, [] => []
  | fuel + 1, c :: cs =>
    if pat.isPrefixOf (c :: cs) && !pat.isEmpty then
      rep ++ replaceAllGo pat rep fuel (cs.drop (pat.length - 1))
    else
      c :: replaceAllGo pat rep fuel cs

/-- Go `strings.ReplaceAll s pat rep` (for the nonempty patterns used by the
source). -/
def replaceAllS (s pat rep : String) : String :=
  ⟨replaceAllGo pat.data rep.data s.data.length s.data⟩

/-- Album-name normalization performed inside `getSpotifyTrackInfo`
(src/main.go:100-102): lowercase the album, strip `"deluxe"`, then strip
`"expanded edition - remastered"`, then (after a redundant second
lowercasing) strip `"bonus tracks edition"`. -/
def normalizeAlbumName (albumName : String) : String :=
  let s1 := replaceAllS (toLowerS albumName) "deluxe" ""
  let s2 := replaceAllS s1 "expanded edition - remastered" ""
  replaceAllS (toLowerS s2) (toLowerS "Bonus Tracks Edition") ""

/-! ## Link-query sanitization (getInfo, src/main.go:255-266) -/

/-- The character class of the Go regexp `[a-zA-Z0-9]`. -/
def isAlnumGo (c : Char) : Bool :=
  (decide (97 ≤ c.toNat) && decide (c.toNat ≤ 122)) ||
  (decide (65 ≤ c.toNat) && decide (c.toNat ≤ 90)) ||
  (decide (48 ≤ c.toNat) && decide (c.toNat ≤ 57))

/-- Go `regexp` substitution `[^a-zA-Z0-9]+` ↦ `"+"`: each maximal run of
characters outside the class becomes a single `'+'`.  The flag records
whether the scanner is inside a run whose `'+'` has already been emitted. -/
def collapseGo : Bool → List Char → List Char
  | _, [] => []
  | inRun, c :: cs =>
    if isAlnumGo c then c :: collapseGo false cs
    else if inRun then collapseGo true cs
    else '+' :: collapseGo true cs

/-- The two sanitization passes of `getInfo`: `strings.ReplaceAll (s, " ", "+")`
followed by `reg.ReplaceAllString (s, "+")` with `reg = [^a-zA-Z0-9]+`. -/
def sanitizeQuery (s : String) : String :=
  ⟨collapseGo false (s.data.map fun c => if c = ' ' then '+' else c)⟩

/-- `true` iff the character list never has two consecutive `'+'`. -/
def noDoublePlus : List Char → Bool
  | a :: b :: rest => !(a == '+' && b == '+') && noDoublePlus (b :: rest)
  | _ => true

/-! ## Data model (src/main.go: MusicInfo, model, newModel) -/

/-- The track metadata struct (src/main.go:33-37). -/
structure MusicInfo where
  artist : String
  album : String
  track : String
deriving DecidableEq

/-- The Bubble Tea model (src/main.go:39-48).  The external
`viewport.Model` is represented by the content string installed into it via
`NewViewport`, and `progress.Model` by its width; the mutex itself carries
no data and is accounted for in the access model below. -/
structure Model where
  viewportContent : String
  progressWidth : Int
  loading : Bool
  info : MusicInfo
  errMsg : String
  content : String
  percent : ℚ
deriving DecidableEq

/-- `newModel` (src/main.go:75-87): progress bar created, `loading = true`,
`MusicInfo` filled from the arguments; the remaining fields take Go's zero
values. -/
def newModel (artist track album : String) : Model :=
  { viewportContent := ""
    progressWidth := 0
    loading := true
    info := { artist := artist, album := album, track := track }
    errMsg := ""
    content := ""
    percent := 0 }

/-! ## Shared-state mutations as an event trace -/

/-- One shared-state mutation of an aggregation cycle: a UI tick
(`Update`, `tickMsg` case, src/main.go:142-144), or the success / failure
path of one `DoOpenAIRequest` worker (src/main.go:210-222). -/
inductive AggEvent
  | tick
  | success (title body : String)
  | failure (errText : String)
deriving DecidableEq

/-- The text a successful call appends to the shared document
(src/main.go:216-217): `title + "\n"` then `responseBody + "\n"`. -/
def successChunk (title body : String) : String :=
  title ++ "\n" ++ (body ++ "\n")

/-- Effect of one event on the model, transcribed from the source:
tick does `m.percent += 0.01`; a successful worker does
`m.percent += 0.33; m.content += c`; a failed worker does
`m.errMsg = "  openai api: " + err.Error(); m.percent += 1.0`. -/
def stepEvent (m : Model) (e : AggEvent) : Model :=
  match e with
  | .tick => { m with percent := m.percent + 1/100 }
  | .success title body =>
      { m with percent := m.percent + 33/100
               content := m.content ++ successChunk title body }
  | .failure errText =>
      { m with errMsg := "  openai api: " ++ errText
               percent := m.percent + 1 }

/-- Run of one interleaving of shared-state mutations over the model. -/
def runEvents (m : Model) (es : List AggEvent) : Model :=
  es.foldl stepEvent m

/-- Event classifiers, used to count the contributions of a trace. -/
def isTick : AggEvent → Bool
  | .tick => true
  | _ => false

def isSuccess : AggEvent → Bool
  | .success _ _ => true
  | _ => false

def isFailure : AggEvent → Bool
  | .failure _ => true
  | _ => false

/-- The `(title, body)` pairs of the successful calls of a trace, in
completion order. -/
def successEvents : List AggEvent → List (String × String)
  | [] => []
  | AggEvent.success t b :: es => (t, b) :: successEvents es
  | _ :: es => successEvents es

/-- Concatenation of a list of strings, left to right. -/
def concatAll : List String → String
  | [] => ""
  | s :: ss => s ++ concatAll ss

/-- The document text contributed by the workers of a trace: the success
chunks in completion order (ticks and failures contribute nothing). -/
def contentOf (es : List AggEvent) : String :=
  concatAll ((successEvents es).map fun p => successChunk p.1 p.2)

/-! ## getInfo: prompt set, links block, join (src/main.go:224-277) -/

/-- The `search` records of `getInfo` (src/main.go:225-243). -/
structure Search where
  prompt : String
  title : String
deriving DecidableEq

def searches (mi : MusicInfo) : List Search :=
  [ { prompt := "Give me album info, tracklist and credits of " ++ mi.artist ++ " " ++ mi.album
      title := "## Album info and credits" }
  , { prompt := "Give me album review of " ++ mi.artist ++ " " ++ mi.album
      title := "## Album review" }
  , { prompt := "Give me song info (limit 500 characters) of " ++ mi.artist ++ " " ++ mi.track
      title := "## Song info" } ]

/-- The links text appended once after the join (src/main.go:255-276):
sanitized artist/track/album tokens templated into the three search URLs,
under the `"## Links "` heading. -/
def linksBlock (mi : MusicInfo) : String :=
  let bandNameQuery := sanitizeQuery mi.artist
  let songNameQuery := sanitizeQuery mi.track
  let albumNameQuery := sanitizeQuery mi.album
  let youtubeURL :=
    "https://www.youtube.com/results?search_query=" ++ bandNameQuery ++ "+" ++ songNameQuery
  let googleImagesURL :=
    "\nhttps://www.google.com/search?q=" ++ bandNameQuery ++ "+" ++ albumNameQuery ++ "&tbm=isch"
  let wikipediaURL :=
    "\nhttps://www.google.com/search?q=wikipedia+" ++ bandNameQuery ++ "+" ++ albumNameQuery
  "\n## Links \n" ++ youtubeURL ++ "\n" ++ googleImagesURL ++ "\n" ++ wikipediaURL

/-- State after `getInfo` passes its join point (`wg.Wait`) and appends the
links block: the worker/tick trace has run, then the links text is
concatenated onto the shared document under the lock. -/
def getInfoFinal (m : Model) (es : List AggEvent) : Model :=
  let m2 := runEvents m es
  { m2 with content := m2.content ++ linksBlock m2.info }

/-! ## Update: manual refresh (src/main.go:119-128) and View -/

/-- The `ctrl+r` branch of `Update`: set `loading`, reset `percent` to 0 and
`content` to the empty string, and install the freshly resolved
`MusicInfo`; the new `getInfo` cycle is dispatched only after these
writes. -/
def ctrlRHandler (m : Model) (mi : MusicInfo) : Model :=
  { m with loading := true
           percent := 0
           content := ""
           info := mi }

/-- External lipgloss style wrappers (display-only): modelled as identity on
the text they render. -/
def styleTitleS (s : String) : String := s

def styleWarningS (s : String) : String := s

def helpStyleS (s : String) : String := s

/-- External bubbles progress bar (`progress.ViewAs`): modelled as a
placeholder rendering of the fraction; no claim depends on its shape. -/
def progressViewAs (p : ℚ) : String := "[" ++ toString p ++ "]"

/-- `helpView` (src/main.go:183-185). -/
def helpView : String :=
  helpStyleS "\n  ↑/↓: Navigate • ctrl-r Refresh • q: Quit \n"

/-- The title line of `View` (src/main.go:166). -/
def titleLine (m : Model) : String :=
  styleTitleS ("  ♪ " ++ m.info.artist ++ " - " ++ m.info.album ++ " - " ++ m.info.track) ++ "\n\n"

/-- `strings.Repeat(" ", padding)` with `padding = 2`. -/
def padS : String := "  "

/-- `View` (src/main.go:165-181): while loading, title plus progress bar;
afterwards title, then the warning banner when `errMsg` is nonempty, then
the viewport document, then the help line. -/
def View (m : Model) : String :=
  if m.loading then
    "  " ++ titleLine m ++ (padS ++ progressViewAs m.percent ++ "\n\n" ++
      (padS ++ helpStyleS "Press ctrl-c to quit"))
  else
    titleLine m ++ (if m.errMsg ≠ "" then styleWarningS m.errMsg ++ "\n\n" else "") ++
      m.viewportContent ++ helpView

/-! ## Helper lemmas -/

theorem strNilAppend (s : String) : "" ++ s = s := by
  rcases s with ⟨l⟩
  show String.mk ([] ++ l) = String.mk l
  rw [List.nil_append]

theorem strAppendNil (s : String) : s ++ "" = s := by
  rcases s with ⟨l⟩
  show String.mk (l ++ []) = String.mk l
  rw [List.append_nil]

theorem strAppendAssoc (a b c : String) : a ++ b ++ c = a ++ (b ++ c) := by
  rcases a with ⟨la⟩
  rcases b with ⟨lb⟩
  rcases c with ⟨lc⟩
  show String.mk (la ++ lb ++ lc) = String.mk (la ++ (lb ++ lc))
  rw [List.append_assoc]

theorem runEvents_nil (m : Model) : runEvents m [] = m := rfl

theorem runEvents_cons (m : Model) (e : AggEvent) (es : List AggEvent) :
    runEvents m (e :: es) = runEvents (stepEvent m e) es := rfl

theorem runEvents_append (m : Model) (es es2 : List AggEvent) :
    runEvents m (es ++ es2) = runEvents (runEvents m es) es2 := by
  simp [runEvents, List.foldl_append]

theorem runEvents_percent (es : List AggEvent) : ∀ m : Model,
    (runEvents m es).percent
      = m.percent + (es.countP isTick : ℚ)/100 + 33*(es.countP isSuccess : ℚ)/100
        + (es.countP isFailure : ℚ) := by
  induction es with
  | nil => intro m; simp [runEvents]
  | cons e es ih =>
    intro m
    rw [runEvents_cons, ih (stepEvent m e)]
    cases e with
    | tick =>
      simp [stepEvent, List.countP_cons, isTick, isSuccess, isFailure]
      ring
    | success t b =>
      simp [stepEvent, List.countP_cons, isTick, isSuccess, isFailure]
      ring
    | failure er =>
      simp [stepEvent, List.countP_cons, isTick, isSuccess, isFailure]
      ring

theorem runEvents_content (es : List AggEvent) : ∀ m : Model,
    (runEvents m es).content = m.content ++ contentOf es := by
  induction es with
  | nil => intro m; simp [runEvents, contentOf, successEvents, concatAll, strAppendNil]
  | cons e es ih =>
    intro m
    rw [runEvents_cons, ih (stepEvent m e)]
    cases e with
    | tick => simp [stepEvent, contentOf, successEvents]
    | success t b =>
      simp [stepEvent, contentOf, successEvents, concatAll, strAppendAssoc]
    | failure er => simp [stepEvent, contentOf, successEvents]

theorem runEvents_info (es : List AggEvent) : ∀ m : Model,
    (runEvents m es).info = m.info := by
  induction es with
  | nil => intro m; rfl
  | cons e es ih =>
    intro m
    rw [runEvents_cons, ih (stepEvent m e)]
    cases e <;> rfl

theorem runEvents_errMsg_last (m : Model) (es : List AggEvent) (e : String) :
    (runEvents m (es ++ [AggEvent.failure e])).errMsg = "  openai api: " ++ e := by
  rw [runEvents_append]
  rfl

theorem stepEvent_percent_mono (m : Model) (e : AggEvent) :
    m.percent ≤ (stepEvent m e).percent := by
  cases e with
  | tick => simp [stepEvent]
  | success t b => simp [stepEvent]; norm_num
  | failure er => simp [stepEvent]

theorem runEvents_percent_mono (es : List AggEvent) : ∀ m : Model,
    m.percent ≤ (runEvents m es).percent := by
  induction es with
  | nil => intro m; exact le_refl _
  | cons e es ih =>
    intro m
    rw [runEvents_cons]
    exact le_trans (stepEvent_percent_mono m e) (ih (stepEvent m e))

theorem isAlnumGo_ne_plus {c : Char} (h : isAlnumGo c = true) : (c == '+') = false := by
  cases hbe : (c == '+') with
  | false => rfl
  | true =>
    have hc : c = '+' := eq_of_beq hbe
    rw [hc] at h
    exact absurd h (by decide)

theorem collapseGo_all_ok (l : List Char) :
    ∀ b, ((collapseGo b l).all fun c => isAlnumGo c || c == '+') = true := by
  induction l with
  | nil => intro b; rfl
  | cons c cs ih =>
    intro b
    by_cases hc : isAlnumGo c = true
    · simp only [collapseGo, hc, if_true, List.all_cons]
      rw [ih false]
      simp [hc]
    · have hc' : isAlnumGo c = false := by
        cases h : isAlnumGo c
        · rfl
        · exact absurd h hc
      cases b with
      | true => simpa [collapseGo, hc'] using ih true
      | false =>
        simp only [collapseGo, hc', if_false, Bool.false_eq_true, List.all_cons]
        rw [ih true]
        simp

theorem collapseGo_true_head (l : List Char) :
    ∀ c, (collapseGo true l).head? = some c → isAlnumGo c = true := by
  induction l with
  | nil => intro c h; simp [collapseGo] at h
  | cons d ds ih =>
    intro c h
    by_cases hd : isAlnumGo d = true
    · simp only [collapseGo, hd, if_true, List.head?_cons, Option.some.injEq] at h
      rw [← h]
      exact hd
    · have hd' : isAlnumGo d = false := by
        cases hh : isAlnumGo d
        · rfl
        · exact absurd hh hd
      simp only [collapseGo, hd', Bool.false_eq_true, if_false, if_true] at h
      exact ih c h

theorem noDoublePlus_cons_notPlus {c : Char} (r : List Char)
    (hc : (c == '+') = false) (hr : noDoublePlus r = true) :
    noDoublePlus (c :: r) = true := by
  cases r with
  | nil => rfl
  | cons d ds =>
    simp only [noDoublePlus, hc, Bool.false_and, Bool.not_false, Bool.true_and]
    exact hr

theorem noDoublePlus_cons_sndNotPlus (c d : Char) (ds : List Char)
    (hd : (d == '+') = false) (hr : noDoublePlus (d :: ds) = true) :
    noDoublePlus (c :: d :: ds) = true := by
  simp only [noDoublePlus, hd, Bool.and_false, Bool.not_false, Bool.true_and]
  exact hr

theorem collapseGo_noDouble (l : List Char) :
    ∀ b, noDoublePlus (collapseGo b l) = true := by
  induction l with
  | nil => intro b; rfl
  | cons c cs ih =>
    intro b
    by_cases hc : isAlnumGo c = true
    · simp only [collapseGo, hc, if_true]
      exact noDoublePlus_cons_notPlus _ (isAlnumGo_ne_plus hc) (ih false)
    · have hc' : isAlnumGo c = false := by
        cases hh : isAlnumGo c
        · rfl
        · exact absurd hh hc
      cases b with
      | true => simpa [collapseGo, hc'] using ih true
      | false =>
        simp only [collapseGo, hc', Bool.false_eq_true, if_false]
        cases hout : collapseGo true cs with
        | nil => rfl
        | cons d ds =>
          have hd : isAlnumGo d = true := by
            apply collapseGo_true_head cs d
            rw [hout]
            rfl
          apply noDoublePlus_cons_sndNotPlus
          · exact isAlnumGo_ne_plus hd
          · rw [← hout]
            exact ih true

/-! ## Mutex-discipline access model (for the concurrency claim) -/

/-- The shared aggregation variables guarded (per the design) by `m.mu`. -/
inductive SharedVar
  | percent
  | content
  | errMsg
deriving DecidableEq

/-- A single access to the shared aggregation state: which variable, whether
it is a write, and whether `m.mu` is held at that program point. -/
structure Access where
  var : SharedVar
  isWrite : Bool
  locked : Bool
deriving DecidableEq

/-- Failure path of `DoOpenAIRequest` (src/main.go:210-214):
`m.errMsg = "  openai api: " + err.Error()` then `m.percent += 1.0`,
with no `m.mu.Lock()` around either statement. -/
def failurePathAccesses : List Access :=
  [ { var := SharedVar.errMsg, isWrite := true, locked := false }
  , { var := SharedVar.percent, isWrite := true, locked := false } ]

/-- Success path of `DoOpenAIRequest` (src/main.go:216-222):
`m.percent += 0.33` and `m.content += c` between `m.mu.Lock()` and
`m.mu.Unlock()`. -/
def successPathAccesses : List Access :=
  [ { var := SharedVar.percent, isWrite := true, locked := true }
  , { var := SharedVar.content, isWrite := true, locked := true } ]

/-- `tickMsg` case of `Update` (src/main.go:142-158): `m.percent += 0.01`
under the lock, then — after `m.mu.Unlock()` — the `m.percent >= 1.0` read
and, on the completed branch, the `NewViewport(m.content)` read. -/
def tickPathAccesses : List Access :=
  [ { var := SharedVar.percent, isWrite := true, locked := true }
  , { var := SharedVar.percent, isWrite := false, locked := false }
  , { var := SharedVar.content, isWrite := false, locked := false } ]

/-- `ctrl+r` case of `Update` (src/main.go:119-128): `m.percent = 0.0` and
`m.content = ""` with no lock held. -/
def ctrlRPathAccesses : List Access :=
  [ { var := SharedVar.percent, isWrite := true, locked := false }
  , { var := SharedVar.content, isWrite := true, locked := false } ]

/-! ## Claim theorems -/

/-- C1 (counterexample): the claim "after the join point completedFraction
equals exactly 1.0 regardless of failures" is false at a concrete input: an
all-success 3-call batch with no tick interleaved ends with
percent 3 · 0.33 = 0.99 ≠ 1. -/
theorem C1_counterexample :
    (runEvents (newModel "a" "t" "b")
      [AggEvent.success "## Album info and credits" "x",
       AggEvent.success "## Album review" "y",
       AggEvent.success "## Song info" "z"]).percent ≠ 1 := by
  simp only [runEvents, List.foldl_cons, List.foldl_nil, stepEvent, newModel]
  norm_num

/-- C1 (amended): after the join of a 3-call batch, completedFraction equals
0.01·ticks + 0.33·successes + 1.0·failures; any failure pushes it strictly
above 1, and an all-success batch with no tick ends at 0.99, never exactly
1.0. -/
theorem C1_amended_percent (a t b : String) (es : List AggEvent)
    (h3 : es.countP isSuccess + es.countP isFailure = 3) :
    (runEvents (newModel a t b) es).percent
      = (es.countP isTick : ℚ)/100 + 33*(es.countP isSuccess : ℚ)/100
        + (es.countP isFailure : ℚ)
    ∧ (1 ≤ es.countP isFailure → 1 < (runEvents (newModel a t b) es).percent)
    ∧ (es.countP isFailure = 0 → es.countP isTick = 0 →
        (runEvents (newModel a t b) es).percent = 99/100) := by
  have hp := runEvents_percent es (newModel a t b)
  have h0 : (newModel a t b).percent = 0 := rfl
  rw [h0] at hp
  refine ⟨by rw [hp]; ring, ?_, ?_⟩
  · intro hf
    rw [hp]
    have htk : (0:ℚ) ≤ (es.countP isTick : ℚ)/100 := by positivity
    have hfq : (1:ℚ) ≤ (es.countP isFailure : ℚ) := by exact_mod_cast hf
    have hq : (es.countP isSuccess : ℚ) + (es.countP isFailure : ℚ) = 3 := by
      exact_mod_cast h3
    linarith
  · intro hf0 htk0
    have hs3 : es.countP isSuccess = 3 := by omega
    rw [hp, hf0, htk0, hs3]
    norm_num

theorem C1_amended_percent_witness :
    1 < (runEvents (newModel "a" "t" "b")
      [AggEvent.failure "x", AggEvent.success "T1" "B1",
       AggEvent.success "T2" "B2"]).percent :=
  (C1_amended_percent "a" "t" "b" _ (by decide)).2.1 (by decide)

/-- C2: the claim "every read and write of percent/content is under the
mutex" is contradicted by the code: the failure path of `DoOpenAIRequest`
performs an unguarded read-modify-write of percent (and an unguarded write
of errMsg) while the success path and the tick hold the lock; the ctrl+r
reset and the tick's completion check are unguarded as well. -/
theorem C2_unlocked_accesses :
    (failurePathAccesses.all fun a => a.locked) = false
    ∧ (failurePathAccesses.any fun a =>
        a.var == SharedVar.percent && a.isWrite && !a.locked) = true
    ∧ (successPathAccesses.all fun a => a.locked) = true
    ∧ (ctrlRPathAccesses.all fun a => a.locked) = false
    ∧ (tickPathAccesses.all fun a => a.locked) = false := by
  decide

theorem successEvents_map_success (ps : List (String × String)) :
    successEvents (ps.map fun p => AggEvent.success p.1 p.2) = ps := by
  induction ps with
  | nil => rfl
  | cons p ps ih => simp [successEvents, ih]

theorem countP_map_success_succ (ps : List (String × String)) :
    ((ps.map fun p => AggEvent.success p.1 p.2).countP isSuccess) = ps.length := by
  induction ps with
  | nil => rfl
  | cons p ps ih => simp [List.countP_cons, isSuccess, ih]

theorem countP_map_success_tick (ps : List (String × String)) :
    ((ps.map fun p => AggEvent.success p.1 p.2).countP isTick) = 0 := by
  induction ps with
  | nil => rfl
  | cons p ps ih => simp [List.countP_cons, isTick, ih]

theorem countP_map_success_fail (ps : List (String × String)) :
    ((ps.map fun p => AggEvent.success p.1 p.2).countP isFailure) = 0 := by
  induction ps with
  | nil => rfl
  | cons p ps ih => simp [List.countP_cons, isFailure, ih]

/-- C3 (counterexample): the claim's per-success increment "equal to 1/N"
(N = 3) and its "sum reaches exactly 1.0" are both false at a concrete
input: one success adds 0.33 ≠ 1/3, and three successes end at 0.99 ≠ 1. -/
theorem C3_counterexample :
    (stepEvent (newModel "a" "t" "b") (AggEvent.success "T" "B")).percent
      ≠ (newModel "a" "t" "b").percent + 1/3
    ∧ (runEvents (newModel "a" "t" "b")
        [AggEvent.success "T1" "B1", AggEvent.success "T2" "B2",
         AggEvent.success "T3" "B3"]).percent ≠ 1 := by
  constructor
  · simp only [stepEvent, newModel]
    norm_num
  · simp only [runEvents, List.foldl_cons, List.foldl_nil, stepEvent, newModel]
    norm_num

/-- C3 (amended): every successful call appends
`title + "\n" + responseBody + "\n"` to the shared document, in completion
order, and increases completedFraction by the fixed constant 0.33 — so a
batch of k successes ends at 0.33·k (0.99 for the 3-call batch, not 1.0). -/
theorem C3_amended (ps : List (String × String)) (a t b : String) :
    (runEvents (newModel a t b) (ps.map fun p => AggEvent.success p.1 p.2)).content
      = concatAll (ps.map fun p => successChunk p.1 p.2)
    ∧ (runEvents (newModel a t b) (ps.map fun p => AggEvent.success p.1 p.2)).percent
      = 33 * (ps.length : ℚ) / 100 := by
  constructor
  · rw [runEvents_content]
    have h0 : (newModel a t b).content = "" := rfl
    rw [h0, strNilAppend]
    unfold contentOf
    rw [successEvents_map_success]
  · rw [runEvents_percent, countP_map_success_succ, countP_map_success_tick,
      countP_map_success_fail]
    have h0 : (newModel a t b).percent = 0 := rfl
    rw [h0]
    push_cast
    ring

/-- C4 (counterexample): the claim "completedFraction is still increased by
the same per-call increment as on success" is false at a concrete input: a
failed call adds 1.0 while a successful one adds 0.33. -/
theorem C4_counterexample :
    (stepEvent (newModel "a" "t" "b") (AggEvent.failure "boom")).percent
      ≠ (stepEvent (newModel "a" "t" "b") (AggEvent.success "T" "B")).percent := by
  simp only [stepEvent, newModel]
  norm_num

/-- C4 (amended): a failed call records the single message
`"  openai api: " + err` as the error (last failure wins), increases
completedFraction by 1.0 (not the 0.33 of a success), leaves the shared
document unchanged (so sibling results are untouched), and the batch still
reaches its join point: every event of the trace, including failures, is
processed and contributes its increment. -/
theorem C4_amended (m : Model) (es : List AggEvent) (e : String) :
    (runEvents m (es ++ [AggEvent.failure e])).errMsg = "  openai api: " ++ e
    ∧ (stepEvent m (AggEvent.failure e)).percent = m.percent + 1
    ∧ (stepEvent m (AggEvent.failure e)).content = m.content
    ∧ (runEvents m (es ++ [AggEvent.failure e])).percent
        = (runEvents m es).percent + 1 := by
  refine ⟨runEvents_errMsg_last m es e, rfl, rfl, ?_⟩
  rw [runEvents_append]
  rfl

/-- C5 (counterexample): the claim's "[0,1]" bound and "equal to the sum of
per-call increments" are false at concrete inputs: one failure plus one
success yields 1.33 > 1, and one UI tick alone yields 0.01 although no
completion call has finished. -/
theorem C5_counterexample :
    ¬ ((runEvents (newModel "a" "t" "b")
        [AggEvent.failure "x", AggEvent.success "T" "B"]).percent ≤ 1)
    ∧ (runEvents (newModel "a" "t" "b") [AggEvent.tick]).percent ≠ 0 := by
  constructor
  · simp only [runEvents, List.foldl_cons, List.foldl_nil, stepEvent, newModel]
    norm_num
  · simp only [runEvents, List.foldl_cons, List.foldl_nil, stepEvent, newModel]
    norm_num

/-- C5 (amended): within one cycle completedFraction is monotonically
non-decreasing under every state-mutating step, and equals the starting
value plus the sum of all increments — 0.01 per UI tick, 0.33 per success,
1.0 per failure — a total that is not bounded by 1. -/
theorem C5_amended (m : Model) (es es2 : List AggEvent) :
    m.percent ≤ (runEvents m es).percent
    ∧ (runEvents m es).percent ≤ (runEvents m (es ++ es2)).percent
    ∧ (runEvents m es).percent
        = m.percent + (es.countP isTick : ℚ)/100 + 33*(es.countP isSuccess : ℚ)/100
          + (es.countP isFailure : ℚ) := by
  refine ⟨runEvents_percent_mono es m, ?_, runEvents_percent es m⟩
  rw [runEvents_append]
  exact runEvents_percent_mono es2 _

/-- C6: album normalization lowercases the album and then strips "deluxe",
"expanded edition - remastered" and "bonus tracks edition" in that order,
leaving surrounding text intact; on "Abbey Road (Deluxe Edition)" it yields
exactly "abbey road ( edition)". -/
theorem C6_album_normalization :
    normalizeAlbumName "Abbey Road (Deluxe Edition)" = "abbey road ( edition)"
    ∧ normalizeAlbumName "The Wall Bonus Tracks Edition" = "the wall "
    ∧ normalizeAlbumName "X Expanded Edition - Remastered" = "x " := by
  decide

/-- C7: every sanitized Link Synthesizer token contains only characters from
[A-Za-z0-9+] and never two consecutive '+'; "AC/DC" sanitizes to "AC+DC"
and "Back In Black" to "Back+In+Black". -/
theorem C7_sanitized_tokens :
    (∀ s : String,
      ((sanitizeQuery s).data.all fun c => isAlnumGo c || c == '+') = true
      ∧ noDoublePlus (sanitizeQuery s).data = true)
    ∧ sanitizeQuery "AC/DC" = "AC+DC"
    ∧ sanitizeQuery "Back In Black" = "Back+In+Black" := by
  refine ⟨fun s => ⟨?_, ?_⟩, by decide, by decide⟩
  · exact collapseGo_all_ok _ false
  · exact collapseGo_noDouble _ false

/-- C8: after a batch in which all 3 prompt calls succeed (UI ticks may
interleave), the aggregated document is the 3 success sections — whose
titles are exactly the 3 prompt headers, in whatever completion order —
followed by the single links block, which is always last. -/
theorem C8_document_shape (mi : MusicInfo) (es : List AggEvent)
    (_hfail : es.countP isFailure = 0)
    (hperm : List.Perm ((successEvents es).map Prod.fst)
      ((searches mi).map Search.title)) :
    (getInfoFinal (newModel mi.artist mi.track mi.album) es).content
      = concatAll ((successEvents es).map fun p => successChunk p.1 p.2)
        ++ linksBlock mi
    ∧ List.Perm ((successEvents es).map Prod.fst)
        ["## Album info and credits", "## Album review", "## Song info"]
    ∧ (successEvents es).length = 3 := by
  have htitles : (searches mi).map Search.title
      = ["## Album info and credits", "## Album review", "## Song info"] := rfl
  refine ⟨?_, htitles ▸ hperm, ?_⟩
  · show (runEvents (newModel mi.artist mi.track mi.album) es).content
      ++ linksBlock (runEvents (newModel mi.artist mi.track mi.album) es).info = _
    rw [runEvents_info, runEvents_content]
    have hinfo : (newModel mi.artist mi.track mi.album).info = mi := rfl
    have h0 : (newModel mi.artist mi.track mi.album).content = "" := rfl
    rw [hinfo, h0, strNilAppend]
    rfl
  · have hlen := hperm.length_eq
    simpa [searches] using hlen

theorem C8_document_shape_witness :
    List.Perm ((successEvents
      [AggEvent.success "## Album review" "r", AggEvent.tick,
       AggEvent.success "## Song info" "s",
       AggEvent.success "## Album info and credits" "a"]).map Prod.fst)
      ["## Album info and credits", "## Album review", "## Song info"] :=
  (C8_document_shape ⟨"AC/DC", "back in black", "Back In Black"⟩ _
    (by decide) (by decide)).2.1

/-- C9: the ctrl+r refresh handler resets completedFraction to 0 and the
shared document to the empty string before the new cycle is dispatched, so
whatever the new cycle's trace is, its recorded document and fraction are
exactly the new cycle's own contributions. -/
theorem C9_refresh_reset (m : Model) (mi : MusicInfo) (es : List AggEvent) :
    (ctrlRHandler m mi).percent = 0
    ∧ (ctrlRHandler m mi).content = ""
    ∧ (ctrlRHandler m mi).loading = true
    ∧ (runEvents (ctrlRHandler m mi) es).content = contentOf es
    ∧ (runEvents (ctrlRHandler m mi) es).percent
        = (es.countP isTick : ℚ)/100 + 33*(es.countP isSuccess : ℚ)/100
          + (es.countP isFailure : ℚ) := by
  refine ⟨rfl, rfl, rfl, ?_, ?_⟩
  · rw [runEvents_content]
    have h0 : (ctrlRHandler m mi).content = "" := rfl
    rw [h0, strNilAppend]
  · rw [runEvents_percent]
    have h0 : (ctrlRHandler m mi).percent = 0 := rfl
    rw [h0]
    ring

/-- C10: the ctrl+r handler mutates only the loading flag, the fraction, the
document and the MusicInfo — errMsg, the viewport and the progress bar are
untouched — and once the refreshed model leaves the loading state, a
previously recorded nonempty errMsg is rendered between the title line and
the document. -/
theorem C10_refresh_frame (m : Model) (mi : MusicInfo) (d : String)
    (hne : m.errMsg ≠ "") :
    (ctrlRHandler m mi).errMsg = m.errMsg
    ∧ (ctrlRHandler m mi).viewportContent = m.viewportContent
    ∧ (ctrlRHandler m mi).progressWidth = m.progressWidth
    ∧ (ctrlRHandler m mi).loading = true
    ∧ (ctrlRHandler m mi).percent = 0
    ∧ (ctrlRHandler m mi).content = ""
    ∧ (ctrlRHandler m mi).info = mi
    ∧ View { ctrlRHandler m mi with loading := false, viewportContent := d }
        = titleLine { ctrlRHandler m mi with loading := false, viewportContent := d }
          ++ (styleWarningS m.errMsg ++ "\n\n") ++ d ++ helpView := by
  refine ⟨rfl, rfl, rfl, rfl, rfl, rfl, rfl, ?_⟩
  have hload : ({ ctrlRHandler m mi with
      loading := false, viewportContent := d } : Model).loading = false := rfl
  have herr : ({ ctrlRHandler m mi with
      loading := false, viewportContent := d } : Model).errMsg = m.errMsg := rfl
  rw [View, hload, herr]
  simp only [Bool.false_eq_true, if_false]
  rw [if_pos hne]

theorem C10_refresh_frame_witness :
    (ctrlRHandler { newModel "a" "t" "b" with errMsg := "  openai api: boom" }
      ⟨"x", "y", "z"⟩).errMsg = "  openai api: boom" :=
  (C10_refresh_frame { newModel "a" "t" "b" with errMsg := "  openai api: boom" }
    ⟨"x", "y", "z"⟩ "doc" (by decide)).1
